import Mathlib

/-!
# Verification of the PlotNi VPN server (`plotni_server.py`)

A shallow embedding of the server's frame codec and per-session control
flow, with theorems settling the specification's claims.

Conventions of the embedding:

* Bytes are `Nat`; byte strings are `List Nat`.
* The AES-256 block primitive (pycryptodome's `AES` with a fixed 32-byte
  key) is an external capability; it is abstracted as a pair of functions
  `E D : List Nat → List Nat` on 16-byte blocks, assumed mutually inverse
  and length-preserving exactly where a theorem needs it.  The derived key
  (`derive_key`, a SHA-256 digest) is absorbed into `E`/`D`, so a
  quantification over `E`/`D` covers all keys.
* `os.urandom(16)` is modelled by passing the drawn IV explicitly to
  `encrypt`.
* Python exceptions become `Except`/`Option` results; pycryptodome's
  `ValueError`s raised inside `decrypt` become the `FrameDecodeError`
  type.
-/

namespace PlotNi

/-- `AES.block_size` of pycryptodome: 16 bytes. -/
def blockSize : Nat := 16

/-- Bytewise XOR of two equal-length byte strings (the CBC chaining step). -/
def xorBytes (a b : List Nat) : List Nat := List.zipWith Nat.xor a b

/-- Split a byte string into consecutive 16-byte chunks, as the block
cipher consumes it.  (On inputs whose length is a multiple of 16 every
chunk has length 16.) -/
def toBlocks (l : List Nat) : List (List Nat) :=
  if h : l = [] then []
  else l.take blockSize :: toBlocks (l.drop blockSize)
termination_by l.length
decreasing_by
  simp only [List.length_drop, blockSize]
  have hlen : 0 < l.length := List.length_pos.mpr h
  omega

/-- CBC-mode encryption of a list of plaintext blocks: each block is XORed
with the previous ciphertext block (initially the IV) and then passed
through the block cipher `E`.  Models `cipher.encrypt` of
`AES.new(key, AES.MODE_CBC, iv)`. -/
def cbcEncBlocks (E : List Nat → List Nat) (prev : List Nat) :
    List (List Nat) → List (List Nat)
  | [] => []
  | b :: bs =>
    let c := E (xorBytes prev b)
    c :: cbcEncBlocks E c bs

/-- CBC-mode decryption of a list of ciphertext blocks with block
decryption `D`.  Models `cipher.decrypt` of
`AES.new(key, AES.MODE_CBC, iv)`. -/
def cbcDecBlocks (D : List Nat → List Nat) (prev : List Nat) :
    List (List Nat) → List (List Nat)
  | [] => []
  | c :: cs => xorBytes prev (D c) :: cbcDecBlocks D c cs

/-- PKCS#7 padding (`Crypto.Util.Padding.pad` with `block_size = 16`):
append `n = 16 - len % 16` bytes, each of value `n` (so a full extra
block when the input is already aligned). -/
def pad (data : List Nat) : List Nat :=
  let n := blockSize - data.length % blockSize
  data ++ List.replicate n n

/-- The distinguished decode error of the frame codec.  Every constructor
corresponds to one of the `ValueError`s pycryptodome raises inside the
server's `decrypt`: a wrong-size IV in `AES.new`, a ciphertext that is not
block-aligned in `cipher.decrypt`, and the two `unpad` failures. -/
inductive FrameDecodeError
  | badIVLength
  | notBlockAligned
  | zeroLengthUnpad
  | badPadding
deriving DecidableEq, Repr

/-- PKCS#7 unpadding (`Crypto.Util.Padding.unpad` with `block_size = 16`):
fails on empty input, on input that is not block-aligned, and when the
final bytes are not a well-formed pad. -/
def unpad (data : List Nat) : Except FrameDecodeError (List Nat) :=
  if data.length = 0 then .error .zeroLengthUnpad
  else if data.length % blockSize ≠ 0 then .error .notBlockAligned
  else if data.getLastD 0 < 1 ∨ data.getLastD 0 > blockSize then .error .badPadding
  else if data.drop (data.length - data.getLastD 0) ≠
      List.replicate (data.getLastD 0) (data.getLastD 0) then
    .error .badPadding
  else .ok (data.take (data.length - data.getLastD 0))

/-- `encrypt(data, key)` of `plotni_server.py` (lines 49–54).  `cryptoOk`
is the module-level `CRYPTO_OK` flag; `iv` is the 16-byte draw of
`os.urandom(16)`; `E` is AES-256 encryption of one block under the
derived key.  When the crypto library is absent the input is returned
unchanged; otherwise the result is `iv ++ CBC-encrypt(pad(data))`. -/
def encrypt (cryptoOk : Bool) (E : List Nat → List Nat) (iv data : List Nat) :
    List Nat :=
  if !cryptoOk then data
  else iv ++ (cbcEncBlocks E iv (toBlocks (pad data))).flatten

/-- `decrypt(data, key)` of `plotni_server.py` (lines 56–61).  `D` is
AES-256 decryption of one block under the derived key.  When the crypto
library is absent the input is returned unchanged; otherwise the first 16
bytes are split off as the IV (`AES.new` rejects a shorter slice), the
remainder must be block-aligned (`cipher.decrypt` rejects it otherwise),
and the CBC decryption is unpadded. -/
def decrypt (cryptoOk : Bool) (D : List Nat → List Nat) (data : List Nat) :
    Except FrameDecodeError (List Nat) :=
  if !cryptoOk then .ok data
  else if (data.take blockSize).length ≠ blockSize then .error .badIVLength
  else if (data.drop blockSize).length % blockSize ≠ 0 then .error .notBlockAligned
  else unpad (cbcDecBlocks D (data.take blockSize) (toBlocks (data.drop blockSize))).flatten

/-- The startup mode line printed by `main` (line 132): the
plaintext-fallback mode is reported distinguishably. -/
def modeString (cryptoOk : Bool) : String :=
  if cryptoOk then "AES-256-CBC" else "PLAINTEXT ⚠️"

/-!
## The per-session control flow of `handle_client`

`handle_client` (lines 77–127) is one `try` block covering the handshake,
the target connect, the `OK` acknowledgment and the downstream relay
loop, followed by `except Exception` (attempt one error frame, swallowing
a failure of that send) and `finally` (close the target writer, swallowing
a failure of the close).  The embedding makes the outcomes of the external
calls explicit in a `SessionEnv` and computes the session's observable
result.  Python's exception hierarchy matters: `except Exception` does
not catch `asyncio.CancelledError` (a `BaseException` since Python 3.8),
so the model tracks for every raised error whether it is an `Exception`.
-/

/-- The Python exceptions the session's external calls can raise. -/
inductive PyErr
  | valueError (msg : String)
  | keyError (key : String)
  | typeError (msg : String)
  | jsonDecodeError
  | unicodeDecodeError
  | osError (msg : String)
  | connectionClosed
  | cancelledError
deriving DecidableEq, Repr

/-- Whether the raised object is an `Exception` (caught by
`except Exception`).  `asyncio.CancelledError` derives from
`BaseException` and is not caught. -/
def PyErr.isException : PyErr → Bool
  | .cancelledError => false
  | _ => true

/-- `str(e)`, the message embedded in the error frame. -/
def PyErr.message : PyErr → String
  | .valueError m => m
  | .keyError k => k
  | .typeError m => m
  | .jsonDecodeError => "Expecting value"
  | .unicodeDecodeError => "invalid utf-8"
  | .osError m => m
  | .connectionClosed => "connection closed"
  | .cancelledError => "cancelled"

/-- JSON scalar values as they occur in a handshake object. -/
inductive JVal
  | jstr (s : String)
  | jint (n : Int)
  | jbool (b : Bool)
  | jnull
deriving DecidableEq, Repr

/-- `info["port"]`-style dictionary access: `KeyError` when absent. -/
def dictGet (info : List (String × JVal)) (k : String) : Except PyErr JVal :=
  match info.lookup k with
  | some v => .ok v
  | none => .error (.keyError k)

/-- Python's `int(...)` conversion on a JSON value: integers pass through,
strings are parsed (raising `ValueError` when not numeric), booleans
coerce to 0/1, `null` raises `TypeError`. -/
def pyInt : JVal → Except PyErr Int
  | .jint n => .ok n
  | .jstr s =>
    match s.toInt? with
    | some n => .ok n
    | none => .error (.valueError "invalid literal for int")
  | .jbool b => .ok (if b then 1 else 0)
  | .jnull => .error (.typeError "int argument must not be None")

/-- One WebSocket message yielded to the `async for` loop: binary
(Python `bytes`) or text (Python `str`). -/
inductive WsMessage
  | bin (data : List Nat)
  | text (s : String)
deriving DecidableEq, Repr

/-- Whether a WebSocket message is binary (`isinstance(message, bytes)`). -/
def WsMessage.isBin : WsMessage → Bool
  | .bin _ => true
  | .text _ => false

/-- A frame `handle_client` attempts to send to the client, identified by
its plaintext payload (what the client obtains after decryption):
the `OK` acknowledgment of line 99, or the error frame of lines 116–117.
(Relay frames to the client are sent by the separate `relay_to_client`
task and are not part of this list.) -/
inductive SentFrame
  | okFrame
  | errorFrame (e : PyErr)
deriving DecidableEq, Repr

/-- The payload of `b"OK"`. -/
def okPayload : List Nat := [79, 75]

/-- The decoded JSON object of the error frame built at line 116:
`json.dumps({"error": str(e)})`. -/
def errFrameJson (e : PyErr) : List (String × JVal) :=
  [("error", .jstr e.message)]

/-- Outcomes of the external calls one run of `handle_client` makes.
Fields are functions where the call's argument is produced by the session
itself.  `clientMessages` are the messages the `async for` yields before
it ends; `clientStreamErr` is an error the iteration itself raises after
those messages (`none` when the client closes cleanly). -/
structure SessionEnv where
  recvResult : Except PyErr (List Nat)
  decryptFn : List Nat → Except PyErr (List Nat)
  utf8Decode : List Nat → Except PyErr String
  parseJson : String → Except PyErr (List (String × JVal))
  connectFn : JVal → Int → Except PyErr Unit
  sendOkResult : Except PyErr Unit
  sendErrResult : Option PyErr
  writeFn : List Nat → Option PyErr
  clientMessages : List WsMessage
  clientStreamErr : Option PyErr

/-- The observable result of one run of `handle_client`:
which frames it attempted to send to the client, whether and with what
arguments `asyncio.open_connection` was called, the byte strings written
to the target, whether `relay_task.cancel()` (line 111) executed, whether
the `finally` block had a writer to close, and the exception escaping
`handle_client`, if any. -/
structure SessionResult where
  sent : List SentFrame
  connectCalled : Option (JVal × Int)
  targetWrites : List (List Nat)
  relayCancelled : Bool
  writerClosed : Bool
  propagated : Option PyErr
deriving DecidableEq, Repr

/-- The downstream relay loop (lines 105–109): for each message, binary
payloads are decrypted and written to the target (draining before the
next read); non-binary messages are skipped by the `isinstance` guard.
Returns the writes performed and the first error raised, if any. -/
def downstreamLoop (dec : List Nat → Except PyErr (List Nat))
    (wr : List Nat → Option PyErr) :
    List WsMessage → List (List Nat) × Option PyErr
  | [] => ([], none)
  | .text _ :: rest => downstreamLoop dec wr rest
  | .bin m :: rest =>
    match dec m with
    | .error e => ([], some e)
    | .ok d =>
      match wr d with
      | some e => ([d], some e)
      | none =>
        (d :: (downstreamLoop dec wr rest).1, (downstreamLoop dec wr rest).2)

/-- The `except Exception` branch (lines 113–119) followed by `finally`
(lines 120–127), entered with the raised error `e` and the state
accumulated so far.  When `e` is an `Exception` it is caught and one
error frame is attempted; a failure of that send is swallowed by the
inner `try` unless it is itself a `BaseException`.  When `e` is not an
`Exception` (cancellation) nothing is caught and `e` escapes.  The
`finally` block runs in every case. -/
def finishWithError (e : PyErr) (sendErr : Option PyErr) (sent : List SentFrame)
    (conn : Option (JVal × Int)) (writes : List (List Nat)) (writerSet : Bool) :
    SessionResult :=
  if e.isException then
    { sent := sent ++ [.errorFrame e], connectCalled := conn,
      targetWrites := writes, relayCancelled := false,
      writerClosed := writerSet,
      propagated :=
        match sendErr with
        | some e2 => if e2.isException then none else some e2
        | none => none }
  else
    { sent := sent, connectCalled := conn, targetWrites := writes,
      relayCancelled := false, writerClosed := writerSet,
      propagated := some e }

/-!
One run of `handle_client` (lines 77–127) is modelled as a chain of
stages, one per statement of the `try` block, each passing its outcome to
the next: receive the handshake frame (line 88), decrypt it and decode
UTF-8 (line 89), parse JSON (line 90), extract `info["host"]` (line 91)
and `int(info["port"])` (line 92), connect to the target (line 96), send
the `OK` frame (line 99), run the downstream loop (lines 105–109), and
on its clean end cancel the upstream relay task (line 111).  Any raised
error transfers control to `finishWithError`. -/

/-- Relay ended without error: an error of the `async for` iteration
itself, if any, decides between the `except` path and the normal exit
through `relay_task.cancel()` (line 111). -/
def afterStream (env : SessionEnv) (hostV : JVal) (port : Int)
    (writes : List (List Nat)) : Option PyErr → SessionResult
  | some e =>
    finishWithError e env.sendErrResult [.okFrame] (some (hostV, port)) writes true
  | none =>
    { sent := [.okFrame], connectCalled := some (hostV, port),
      targetWrites := writes, relayCancelled := true,
      writerClosed := true, propagated := none }

/-- Outcome of the downstream loop body (decrypt/write errors). -/
def afterRelay (env : SessionEnv) (hostV : JVal) (port : Int)
    (writes : List (List Nat)) : Option PyErr → SessionResult
  | some e =>
    finishWithError e env.sendErrResult [.okFrame] (some (hostV, port)) writes true
  | none => afterStream env hostV port writes env.clientStreamErr

/-- Outcome of `ws.send(encrypt(b"OK", key))` (line 99). -/
def afterSendOk (env : SessionEnv) (hostV : JVal) (port : Int) :
    Except PyErr Unit → SessionResult
  | .error e =>
    finishWithError e env.sendErrResult [.okFrame] (some (hostV, port)) [] true
  | .ok _ =>
    afterRelay env hostV port
      (downstreamLoop env.decryptFn env.writeFn env.clientMessages).1
      (downstreamLoop env.decryptFn env.writeFn env.clientMessages).2

/-- Outcome of `asyncio.open_connection(...)` (line 96). -/
def afterConnect (env : SessionEnv) (hostV : JVal) (port : Int) :
    Except PyErr Unit → SessionResult
  | .error e => finishWithError e env.sendErrResult [] (some (hostV, port)) [] false
  | .ok _ => afterSendOk env hostV port env.sendOkResult

/-- Outcome of `int(info["port"])` (line 92). -/
def afterPyInt (env : SessionEnv) (hostV : JVal) :
    Except PyErr Int → SessionResult
  | .error e => finishWithError e env.sendErrResult [] none [] false
  | .ok port => afterConnect env hostV port (env.connectFn hostV port)

/-- Outcome of `info["port"]` (line 92). -/
def afterPort (env : SessionEnv) (hostV : JVal) :
    Except PyErr JVal → SessionResult
  | .error e => finishWithError e env.sendErrResult [] none [] false
  | .ok portV => afterPyInt env hostV (pyInt portV)

/-- Outcome of `info["host"]` (line 91). -/
def afterHost (env : SessionEnv) (info : List (String × JVal)) :
    Except PyErr JVal → SessionResult
  | .error e => finishWithError e env.sendErrResult [] none [] false
  | .ok hostV => afterPort env hostV (dictGet info "port")

/-- Outcome of `json.loads(request)` (line 90). -/
def afterJson (env : SessionEnv) :
    Except PyErr (List (String × JVal)) → SessionResult
  | .error e => finishWithError e env.sendErrResult [] none [] false
  | .ok info => afterHost env info (dictGet info "host")

/-- Outcome of `.decode()` (line 89). -/
def afterUtf8 (env : SessionEnv) : Except PyErr String → SessionResult
  | .error e => finishWithError e env.sendErrResult [] none [] false
  | .ok request => afterJson env (env.parseJson request)

/-- Outcome of `decrypt(enc_request, key)` (line 89). -/
def afterDecrypt (env : SessionEnv) : Except PyErr (List Nat) → SessionResult
  | .error e => finishWithError e env.sendErrResult [] none [] false
  | .ok plain => afterUtf8 env (env.utf8Decode plain)

/-- Outcome of `await ws.recv()` (line 88). -/
def afterRecv (env : SessionEnv) : Except PyErr (List Nat) → SessionResult
  | .error e => finishWithError e env.sendErrResult [] none [] false
  | .ok frame => afterDecrypt env (env.decryptFn frame)

/-- One full run of `handle_client` under the given environment. -/
def runSession (env : SessionEnv) : SessionResult :=
  afterRecv env env.recvResult

/-!
The handshake pipeline on its own (lines 88–92), mirroring the stages of
`runSession`: it yields the host value and converted port that reach the
`asyncio.open_connection` call, or `none` when some stage raises first.
Presence of the two keys and `int()`-convertibility of the port are the
only checks performed. -/

/-- Handshake pipeline, after `int(info["port"])`. -/
def phAfterPyInt (hostV : JVal) : Except PyErr Int → Option (JVal × Int)
  | .error _ => none
  | .ok port => some (hostV, port)

/-- Handshake pipeline, after `info["port"]`. -/
def phAfterPort (hostV : JVal) : Except PyErr JVal → Option (JVal × Int)
  | .error _ => none
  | .ok portV => phAfterPyInt hostV (pyInt portV)

/-- Handshake pipeline, after `info["host"]`. -/
def phAfterHost (info : List (String × JVal)) :
    Except PyErr JVal → Option (JVal × Int)
  | .error _ => none
  | .ok hostV => phAfterPort hostV (dictGet info "port")

/-- Handshake pipeline, after `json.loads`. -/
def phAfterJson : Except PyErr (List (String × JVal)) → Option (JVal × Int)
  | .error _ => none
  | .ok info => phAfterHost info (dictGet info "host")

/-- Handshake pipeline, after `.decode()`. -/
def phAfterUtf8 (env : SessionEnv) : Except PyErr String → Option (JVal × Int)
  | .error _ => none
  | .ok request => phAfterJson (env.parseJson request)

/-- Handshake pipeline, after `decrypt`. -/
def phAfterDecrypt (env : SessionEnv) :
    Except PyErr (List Nat) → Option (JVal × Int)
  | .error _ => none
  | .ok plain => phAfterUtf8 env (env.utf8Decode plain)

/-- Handshake pipeline, after `ws.recv()`. -/
def phAfterRecv (env : SessionEnv) :
    Except PyErr (List Nat) → Option (JVal × Int)
  | .error _ => none
  | .ok frame => phAfterDecrypt env (env.decryptFn frame)

/-- The host/port pair the handshake pipeline delivers to the connect
call, or `none` when a stage raises. -/
def parsedHandshake (env : SessionEnv) : Option (JVal × Int) :=
  phAfterRecv env env.recvResult

/-- `r` raises only `Exception`-kind errors. -/
def excOnly {α : Type} (r : Except PyErr α) : Prop :=
  ∀ e, r = .error e → e.isException = true

/-- `o`, when it is an error, is an `Exception`-kind error. -/
def optExcOnly (o : Option PyErr) : Prop :=
  ∀ e, o = some e → e.isException = true

/-- Every external call of the session raises only `Exception`-kind
errors (the transport, codec, JSON and connect calls all do; only a task
cancellation, which none of these calls produces, is outside
`Exception`). -/
def SessionEnv.exceptionsOnly (env : SessionEnv) : Prop :=
  excOnly env.recvResult ∧
  (∀ b, excOnly (env.decryptFn b)) ∧
  (∀ b, excOnly (env.utf8Decode b)) ∧
  (∀ s, excOnly (env.parseJson s)) ∧
  (∀ h p, excOnly (env.connectFn h p)) ∧
  excOnly env.sendOkResult ∧
  optExcOnly env.sendErrResult ∧
  (∀ d, optExcOnly (env.writeFn d)) ∧
  optExcOnly env.clientStreamErr

/-!
## The relay-phase cancellation structure

What ends which loop during Relaying (lines 64–74 and 103–111).
`relay_to_client` (the upstream task) breaks out of its loop on an empty
read (line 69–70) and swallows any exception (lines 73–74); in both
cases it simply returns, touching nothing else.  The downstream
`async for` loop ends either because the client connection closed — then
execution reaches `relay_task.cancel()` on line 111 — or by raising,
which jumps to the `except` branch and skips line 111. -/
inductive RelayEnd
  | targetEOF
  | targetErr
  | clientClosed
  | clientErr
deriving DecidableEq, Repr

/-- What has happened one relay cycle after the given termination event:
whether the upstream `relay_to_client` task has ended, whether the
downstream `async for` loop has ended, whether `relay_task.cancel()`
(line 111) ran, and whether `handle_client` proceeded past the relay
phase (into `except`/`finally`). -/
structure RelayOutcome where
  upstreamTaskEnded : Bool
  downstreamEnded : Bool
  relayTaskCancelled : Bool
  sessionFinished : Bool
deriving DecidableEq, Repr

/-- The code's behavior at each relay termination event.
On `targetEOF`/`targetErr` the upstream task returns and nothing else
happens: the downstream loop stays blocked in `async for message in ws`,
line 111 is never reached, and `handle_client` does not finish.
On `clientClosed` the loop exits normally and line 111 cancels the
upstream task.  On `clientErr` the raised error skips line 111; the
upstream task is not cancelled (it ends only later, when its own
`ws.send` fails on the closed connection). -/
def relayStep : RelayEnd → RelayOutcome
  | .targetEOF =>
    { upstreamTaskEnded := true, downstreamEnded := false,
      relayTaskCancelled := false, sessionFinished := false }
  | .targetErr =>
    { upstreamTaskEnded := true, downstreamEnded := false,
      relayTaskCancelled := false, sessionFinished := false }
  | .clientClosed =>
    { upstreamTaskEnded := true, downstreamEnded := true,
      relayTaskCancelled := true, sessionFinished := true }
  | .clientErr =>
    { upstreamTaskEnded := false, downstreamEnded := true,
      relayTaskCancelled := false, sessionFinished := true }

/-- The session's use of the frame codec: a `FrameDecodeError` raised
inside `decrypt` surfaces in `handle_client` as pycryptodome's
`ValueError`. -/
def codecDecrypt (cryptoOk : Bool) (D : List Nat → List Nat) (b : List Nat) :
    Except PyErr (List Nat) :=
  match decrypt cryptoOk D b with
  | .ok v => .ok v
  | .error _ => .error (.valueError "Padding is incorrect")

/-!
## Concrete session environments used as test inputs
-/

/-- A session whose first frame (one byte, shorter than the IV) cannot be
decrypted; every later call would succeed. -/
def envUndecryptable : SessionEnv :=
  { recvResult := .ok [9]
    decryptFn := codecDecrypt true (fun b => b)
    utf8Decode := fun _ => .ok "req"
    parseJson := fun _ => .ok [("host", .jstr "example.com"), ("port", .jint 80)]
    connectFn := fun _ _ => .ok ()
    sendOkResult := .ok ()
    sendErrResult := none
    writeFn := fun _ => none
    clientMessages := []
    clientStreamErr := none }

/-- A session whose handshake frame decrypts and parses to a JSON object
with no `host` field. -/
def envMissingHost : SessionEnv :=
  { recvResult := .ok [0]
    decryptFn := fun b => .ok b
    utf8Decode := fun _ => .ok "req"
    parseJson := fun _ => .ok [("port", .jint 80)]
    connectFn := fun _ _ => .ok ()
    sendOkResult := .ok ()
    sendErrResult := none
    writeFn := fun _ => none
    clientMessages := []
    clientStreamErr := none }

/-- A session whose handshake names the empty host and port `0` — outside
the 1–65535 range — and whose connect call fails. -/
def envPortZero : SessionEnv :=
  { recvResult := .ok [0]
    decryptFn := fun b => .ok b
    utf8Decode := fun _ => .ok "req"
    parseJson := fun _ => .ok [("host", .jstr ""), ("port", .jint 0)]
    connectFn := fun _ _ => .error (.osError "connect: invalid argument")
    sendOkResult := .ok ()
    sendErrResult := none
    writeFn := fun _ => none
    clientMessages := []
    clientStreamErr := none }

/-- A session whose well-formed handshake names an unreachable target. -/
def envConnectFail : SessionEnv :=
  { recvResult := .ok [0]
    decryptFn := fun b => .ok b
    utf8Decode := fun _ => .ok "req"
    parseJson := fun _ => .ok [("host", .jstr "example.invalid"), ("port", .jint 80)]
    connectFn := fun _ _ => .error (.osError "unreachable")
    sendOkResult := .ok ()
    sendErrResult := none
    writeFn := fun _ => none
    clientMessages := []
    clientStreamErr := none }

/-!
## Lemmas about the frame codec
-/

theorem toBlocks_nil : toBlocks [] = [] := by
  rw [toBlocks]
  simp

theorem toBlocks_of_ne_nil (l : List Nat) (h : l ≠ []) :
    toBlocks l = l.take blockSize :: toBlocks (l.drop blockSize) := by
  rw [toBlocks]
  simp [h]

theorem flatten_toBlocks (l : List Nat) : (toBlocks l).flatten = l := by
  induction l using toBlocks.induct with
  | case1 => rw [toBlocks_nil]; rfl
  | case2 l h ih =>
    rw [toBlocks_of_ne_nil l h]
    rw [List.flatten_cons, ih, List.take_append_drop]

theorem mem_toBlocks_length (l : List Nat) :
    l.length % blockSize = 0 → ∀ b ∈ toBlocks l, b.length = blockSize := by
  induction l using toBlocks.induct with
  | case1 => intro _ b hb; rw [toBlocks_nil] at hb; cases hb
  | case2 l h ih =>
    intro hl b hb
    have hpos : 0 < l.length := List.length_pos.mpr h
    have hge : blockSize ≤ l.length := by
      simp only [blockSize] at hl ⊢
      omega
    rw [toBlocks_of_ne_nil l h] at hb
    rcases List.mem_cons.mp hb with hb | hb
    · subst hb
      rw [List.length_take]
      omega
    · have hmod : (l.drop blockSize).length % blockSize = 0 := by
        rw [List.length_drop]
        simp only [blockSize] at hl ⊢
        omega
      exact ih hmod b hb

theorem toBlocks_flatten (cs : List (List Nat))
    (h : ∀ b ∈ cs, b.length = blockSize) : toBlocks cs.flatten = cs := by
  induction cs with
  | nil => exact toBlocks_nil
  | cons c cs ih =>
    have hc : c.length = blockSize := h c (List.mem_cons_self c cs)
    have hcne : c ++ cs.flatten ≠ [] := by
      intro hcontra
      have : c = [] := (List.append_eq_nil.mp hcontra).1
      rw [this] at hc
      simp [blockSize] at hc
    rw [List.flatten_cons, toBlocks_of_ne_nil _ hcne, List.take_left' hc,
      List.drop_left' hc, ih (fun b hb => h b (List.mem_cons_of_mem c hb))]

theorem length_xorBytes (a b : List Nat) :
    (xorBytes a b).length = min a.length b.length :=
  List.length_zipWith _ _ _

theorem xorBytes_cons (x y : Nat) (xs ys : List Nat) :
    xorBytes (x :: xs) (y :: ys) = Nat.xor x y :: xorBytes xs ys := rfl

theorem xorBytes_xorBytes (a b : List Nat) (h : a.length = b.length) :
    xorBytes a (xorBytes a b) = b := by
  induction a generalizing b with
  | nil =>
    cases b with
    | nil => rfl
    | cons y ys => simp at h
  | cons x xs ih =>
    cases b with
    | nil => simp at h
    | cons y ys =>
      rw [xorBytes_cons, xorBytes_cons]
      have hx : Nat.xor x (Nat.xor x y) = y := Nat.xor_cancel_left x y
      rw [hx, ih ys (by simpa using h)]

theorem cbcEncBlocks_mem_length (E : List Nat → List Nat)
    (hE : ∀ b, b.length = blockSize → (E b).length = blockSize)
    (bs : List (List Nat)) :
    ∀ prev, prev.length = blockSize → (∀ b ∈ bs, b.length = blockSize) →
      ∀ c ∈ cbcEncBlocks E prev bs, c.length = blockSize := by
  induction bs with
  | nil => intro prev _ _ c hc; cases hc
  | cons b bs ih =>
    intro prev hprev hbs c hc
    have hb : b.length = blockSize := hbs b (List.mem_cons_self b bs)
    have hxb : (xorBytes prev b).length = blockSize := by
      rw [length_xorBytes, hprev, hb]
      exact Nat.min_self _
    have hEb : (E (xorBytes prev b)).length = blockSize := hE _ hxb
    simp only [cbcEncBlocks] at hc
    rcases List.mem_cons.mp hc with hc | hc
    · rw [hc]; exact hEb
    · exact ih _ hEb (fun x hx => hbs x (List.mem_cons_of_mem b hx)) c hc

theorem cbcDecBlocks_cbcEncBlocks (E D : List Nat → List Nat)
    (hE : ∀ b, b.length = blockSize → (E b).length = blockSize)
    (hD : ∀ b, b.length = blockSize → D (E b) = b)
    (bs : List (List Nat)) :
    ∀ prev, prev.length = blockSize → (∀ b ∈ bs, b.length = blockSize) →
      cbcDecBlocks D prev (cbcEncBlocks E prev bs) = bs := by
  induction bs with
  | nil => intro prev _ _; rfl
  | cons b bs ih =>
    intro prev hprev hbs
    have hb : b.length = blockSize := hbs b (List.mem_cons_self b bs)
    have hxb : (xorBytes prev b).length = blockSize := by
      rw [length_xorBytes, hprev, hb]
      exact Nat.min_self _
    simp only [cbcEncBlocks, cbcDecBlocks]
    rw [hD _ hxb, xorBytes_xorBytes prev b (by rw [hprev, hb]),
      ih _ (hE _ hxb) (fun x hx => hbs x (List.mem_cons_of_mem b hx))]

theorem flatten_length_mod (cs : List (List Nat))
    (h : ∀ b ∈ cs, b.length = blockSize) : cs.flatten.length % blockSize = 0 := by
  induction cs with
  | nil => simp
  | cons c cs ih =>
    rw [List.flatten_cons, List.length_append, h c (List.mem_cons_self c cs)]
    have := ih (fun b hb => h b (List.mem_cons_of_mem c hb))
    simp only [blockSize] at *
    omega

theorem pad_length_mod (data : List Nat) : (pad data).length % blockSize = 0 := by
  show (data ++ List.replicate _ _).length % blockSize = 0
  rw [List.length_append, List.length_replicate]
  simp only [blockSize]
  omega

theorem unpad_append_replicate (data : List Nat) (n : Nat) (h1 : 1 ≤ n)
    (h16 : n ≤ blockSize) (hmod : (data.length + n) % blockSize = 0) :
    unpad (data ++ List.replicate n n) = .ok data := by
  have hlen : (data ++ List.replicate n n).length = data.length + n := by
    rw [List.length_append, List.length_replicate]
  have hlast : (data ++ List.replicate n n).getLastD 0 = n := by
    obtain ⟨m, hm⟩ : ∃ m, n = m + 1 := ⟨n - 1, by omega⟩
    subst hm
    rw [List.replicate_succ', ← List.append_assoc, List.getLastD_concat]
  have hsub : data.length + n - n = data.length := by omega
  rw [unpad, hlen, hlast, hsub, if_neg (by omega),
    if_neg (fun hcon => hcon hmod),
    if_neg (by push_neg; exact ⟨h1, h16⟩),
    if_neg (fun hcon => hcon (List.drop_left _ _)), List.take_left]

theorem unpad_pad (data : List Nat) : unpad (pad data) = Except.ok data := by
  have hrfl : pad data = data ++
      List.replicate (blockSize - data.length % blockSize)
        (blockSize - data.length % blockSize) := rfl
  rw [hrfl]
  apply unpad_append_replicate
  · simp only [blockSize]; omega
  · exact Nat.sub_le _ _
  · simp only [blockSize]; omega

/-!
## Claim theorems about the frame codec
-/

/-- C1: for every byte sequence `M`, every block cipher pair obtained from
a 32-byte key, and every 16-byte IV drawn for encryption,
`decrypt (encrypt M)` returns exactly `M` — the IV prefix is split off,
the ciphertext CBC-decrypted, and the padding removed — in both the
cipher-enabled mode and the plaintext-fallback mode. -/
theorem C1_encrypt_decrypt_roundtrip (E D : List Nat → List Nat) (iv M : List Nat)
    (hiv : iv.length = blockSize)
    (hE : ∀ b, b.length = blockSize → (E b).length = blockSize)
    (hD : ∀ b, b.length = blockSize → D (E b) = b) :
    decrypt true D (encrypt true E iv M) = Except.ok M ∧
    decrypt false D (encrypt false E iv M) = Except.ok M := by
  refine ⟨?_, rfl⟩
  have hpadmem : ∀ b ∈ toBlocks (pad M), b.length = blockSize :=
    mem_toBlocks_length _ (pad_length_mod M)
  have hctmem : ∀ c ∈ cbcEncBlocks E iv (toBlocks (pad M)), c.length = blockSize :=
    cbcEncBlocks_mem_length E hE _ iv hiv hpadmem
  have hctmod : (cbcEncBlocks E iv (toBlocks (pad M))).flatten.length % blockSize = 0 :=
    flatten_length_mod _ hctmem
  have henc : encrypt true E iv M =
      iv ++ (cbcEncBlocks E iv (toBlocks (pad M))).flatten := by
    rw [encrypt]
    rfl
  rw [henc, decrypt]
  rw [if_neg (by simp), List.take_left' hiv, List.drop_left' hiv,
    if_neg (by rw [hiv]; simp), if_neg (fun hcon => hcon hctmod)]
  rw [toBlocks_flatten _ hctmem,
    cbcDecBlocks_cbcEncBlocks E D hE hD _ iv hiv hpadmem,
    flatten_toBlocks, unpad_pad]

/-- Witness for C1 at the identity block cipher, the all-zero IV and the
message `[1, 2, 3]`. -/
theorem C1_encrypt_decrypt_roundtrip_witness :
    decrypt true (fun b => b)
      (encrypt true (fun b => b) (List.replicate 16 0) [1, 2, 3]) =
      Except.ok [1, 2, 3] :=
  (C1_encrypt_decrypt_roundtrip (fun b => b) (fun b => b) (List.replicate 16 0)
    [1, 2, 3] (by simp [blockSize]) (fun b hb => hb) (fun b hb => rfl)).1

/-- C5: whenever the input to `decrypt` is shorter than the 16-byte IV,
or its ciphertext portion is not a multiple of the block size, or the
padding after decryption is malformed, `decrypt` fails with a
`FrameDecodeError` — it is a total function into `Except FrameDecodeError`,
so no other kind of crash is possible. -/
theorem C5_decrypt_malformed_input_errors (D : List Nat → List Nat)
    (data : List Nat)
    (h : data.length < blockSize ∨
         (data.drop blockSize).length % blockSize ≠ 0 ∨
         (∃ e, unpad (cbcDecBlocks D (data.take blockSize)
            (toBlocks (data.drop blockSize))).flatten = .error e)) :
    ∃ e, decrypt true D data = .error e := by
  rw [decrypt, if_neg (by simp)]
  by_cases h16 : (data.take blockSize).length ≠ blockSize
  · rw [if_pos h16]
    exact ⟨_, rfl⟩
  · rw [if_neg h16]
    by_cases halign : (data.drop blockSize).length % blockSize ≠ 0
    · rw [if_pos halign]
      exact ⟨_, rfl⟩
    · rw [if_neg halign]
      rcases h with h | h | ⟨e, he⟩
      · exfalso
        apply h16
        rw [List.length_take]
        omega
      · exact absurd h halign
      · exact ⟨e, he⟩

/-- Witness for C5 at the one-byte input `[1]`, shorter than the IV. -/
theorem C5_decrypt_malformed_input_errors_witness :
    ∃ e, decrypt true (fun b => b) [1] = .error e :=
  C5_decrypt_malformed_input_errors (fun b => b) [1] (Or.inl (by decide))

/-- C8: in cipher-enabled mode, encrypting the same plaintext twice with
the same key produces different ciphertexts whenever the two freshly
drawn 16-byte IVs differ, because the IV prefixes the output. -/
theorem C8_iv_freshness_distinct_ciphertexts (E : List Nat → List Nat)
    (iv1 iv2 M : List Nat) (h1 : iv1.length = blockSize)
    (h2 : iv2.length = blockSize) (hne : iv1 ≠ iv2) :
    encrypt true E iv1 M ≠ encrypt true E iv2 M ∧
    (encrypt true E iv1 M).take blockSize = iv1 := by
  have hpre : ∀ iv, iv.length = blockSize →
      (encrypt true E iv M).take blockSize = iv := by
    intro iv hiv
    have henc : encrypt true E iv M =
        iv ++ (cbcEncBlocks E iv (toBlocks (pad M))).flatten := by
      rw [encrypt]
      rfl
    rw [henc, List.take_left' hiv]
  refine ⟨fun heq => hne ?_, hpre iv1 h1⟩
  rw [← hpre iv1 h1, ← hpre iv2 h2, heq]

/-- Witness for C8 at the identity block cipher and two distinct IVs. -/
theorem C8_iv_freshness_distinct_ciphertexts_witness :
    encrypt true (fun b => b) (List.replicate 16 0) [5] ≠
    encrypt true (fun b => b) (List.replicate 16 1) [5] :=
  (C8_iv_freshness_distinct_ciphertexts (fun b => b) (List.replicate 16 0)
    (List.replicate 16 1) [5] (by simp [blockSize]) (by simp [blockSize])
    (by decide)).1

/-- C9: when the crypto library failed to import (`CRYPTO_OK = False`),
both `encrypt` and `decrypt` are the identity on every input for every
block cipher (hence every key), and the startup mode line distinguishes
this plaintext-fallback mode. -/
theorem C9_plaintext_fallback_identity :
    (∀ (E : List Nat → List Nat) (iv data : List Nat),
      encrypt false E iv data = data) ∧
    (∀ (D : List Nat → List Nat) (data : List Nat),
      decrypt false D data = .ok data) ∧
    modeString false ≠ modeString true := by
  refine ⟨fun E iv data => rfl, fun D data => rfl, by decide⟩

/-!
## Lemmas about the session control flow
-/

theorem finishWithError_connectCalled (e : PyErr) (sendErr : Option PyErr)
    (sent : List SentFrame) (conn : Option (JVal × Int))
    (writes : List (List Nat)) (wset : Bool) :
    (finishWithError e sendErr sent conn writes wset).connectCalled = conn := by
  unfold finishWithError
  split <;> rfl

theorem finishWithError_of_exc (e : PyErr) (sendErr : Option PyErr)
    (sent : List SentFrame) (conn : Option (JVal × Int))
    (writes : List (List Nat)) (wset : Bool)
    (hexc : e.isException = true) (hsend : optExcOnly sendErr) :
    finishWithError e sendErr sent conn writes wset =
      { sent := sent ++ [.errorFrame e], connectCalled := conn,
        targetWrites := writes, relayCancelled := false,
        writerClosed := wset, propagated := none } := by
  unfold finishWithError
  rw [if_pos hexc]
  cases sendErr with
  | none => rfl
  | some e2 => simp [hsend e2 rfl]

theorem finishWithError_propagated_none (e : PyErr) (sendErr : Option PyErr)
    (sent : List SentFrame) (conn : Option (JVal × Int))
    (writes : List (List Nat)) (wset : Bool)
    (hexc : e.isException = true) (hsend : optExcOnly sendErr) :
    (finishWithError e sendErr sent conn writes wset).propagated = none := by
  rw [finishWithError_of_exc _ _ _ _ _ _ hexc hsend]

theorem dictGet_error_isException (info : List (String × JVal)) (k : String)
    (e : PyErr) (h : dictGet info k = .error e) : e.isException = true := by
  unfold dictGet at h
  revert h
  split
  · intro h; cases h
  · intro h
    injection h with h2
    rw [← h2]
    rfl

theorem pyInt_error_isException (v : JVal) (e : PyErr)
    (h : pyInt v = .error e) : e.isException = true := by
  cases v with
  | jint n => cases h
  | jstr s =>
    simp only [pyInt] at h
    revert h
    split
    · intro h; cases h
    · intro h
      injection h with h2
      rw [← h2]
      rfl
  | jbool b => cases h
  | jnull =>
    simp only [pyInt] at h
    injection h with h2
    rw [← h2]
    rfl

theorem downstreamLoop_error_sources (dec : List Nat → Except PyErr (List Nat))
    (wr : List Nat → Option PyErr) (msgs : List WsMessage) :
    ∀ e, (downstreamLoop dec wr msgs).2 = some e →
      (∃ b, dec b = .error e) ∨ (∃ d, wr d = some e) := by
  induction msgs with
  | nil => intro e he; cases he
  | cons m rest ih =>
    cases m with
    | text s => exact ih
    | bin b =>
      intro e he
      rw [downstreamLoop] at he
      cases hd : dec b with
      | error e2 =>
        simp only [hd] at he
        injection he with he2
        exact Or.inl ⟨b, by rw [hd, he2]⟩
      | ok d =>
        simp only [hd] at he
        cases hw : wr d with
        | some e2 =>
          simp only [hw] at he
          injection he with he2
          exact Or.inr ⟨d, by rw [hw, he2]⟩
        | none =>
          simp only [hw] at he
          exact ih e he

/-!
## Claim theorems about the session control flow
-/

/-- C7: every error raised by the transport, codec, JSON-decoding or
target-connection calls of one session — all of which raise
`Exception`-kind errors — is absorbed by `handle_client`: the handler
returns without propagating anything, so no session failure can reach
the accept loop of `main` or another session. -/
theorem C7_session_errors_never_propagate (env : SessionEnv)
    (h : env.exceptionsOnly) : (runSession env).propagated = none := by
  obtain ⟨hrecv, hdec, hutf, hjson, hconn, hsendok, hsenderr, hwrite, hstream⟩ := h
  rw [runSession]
  cases hr : env.recvResult with
  | error e =>
    simp only [afterRecv]
    exact finishWithError_propagated_none _ _ _ _ _ _ (hrecv e hr) hsenderr
  | ok frame =>
  simp only [afterRecv]
  cases hd : env.decryptFn frame with
  | error e =>
    simp only [afterDecrypt]
    exact finishWithError_propagated_none _ _ _ _ _ _ (hdec frame e hd) hsenderr
  | ok plain =>
  simp only [afterDecrypt]
  cases hu : env.utf8Decode plain with
  | error e =>
    simp only [afterUtf8]
    exact finishWithError_propagated_none _ _ _ _ _ _ (hutf plain e hu) hsenderr
  | ok request =>
  simp only [afterUtf8]
  cases hj : env.parseJson request with
  | error e =>
    simp only [afterJson]
    exact finishWithError_propagated_none _ _ _ _ _ _ (hjson request e hj) hsenderr
  | ok info =>
  simp only [afterJson]
  cases hh : dictGet info "host" with
  | error e =>
    simp only [afterHost]
    exact finishWithError_propagated_none _ _ _ _ _ _
      (dictGet_error_isException info "host" e hh) hsenderr
  | ok hostV =>
  simp only [afterHost]
  cases hp : dictGet info "port" with
  | error e =>
    simp only [afterPort]
    exact finishWithError_propagated_none _ _ _ _ _ _
      (dictGet_error_isException info "port" e hp) hsenderr
  | ok portV =>
  simp only [afterPort]
  cases hi : pyInt portV with
  | error e =>
    simp only [afterPyInt]
    exact finishWithError_propagated_none _ _ _ _ _ _
      (pyInt_error_isException portV e hi) hsenderr
  | ok port =>
  simp only [afterPyInt]
  cases hc : env.connectFn hostV port with
  | error e =>
    simp only [afterConnect]
    exact finishWithError_propagated_none _ _ _ _ _ _ (hconn hostV port e hc) hsenderr
  | ok u =>
  simp only [afterConnect]
  cases hs : env.sendOkResult with
  | error e =>
    simp only [afterSendOk]
    exact finishWithError_propagated_none _ _ _ _ _ _ (hsendok e hs) hsenderr
  | ok u2 =>
  simp only [afterSendOk]
  cases hl : (downstreamLoop env.decryptFn env.writeFn env.clientMessages).2 with
  | some e =>
    simp only [afterRelay]
    have hle : e.isException = true := by
      rcases downstreamLoop_error_sources _ _ _ e hl with ⟨b, hb⟩ | ⟨d, hdw⟩
      · exact hdec b e hb
      · exact hwrite d e hdw
    exact finishWithError_propagated_none _ _ _ _ _ _ hle hsenderr
  | none =>
  simp only [afterRelay]
  cases hcs : env.clientStreamErr with
  | some e =>
    simp only [afterStream]
    exact finishWithError_propagated_none _ _ _ _ _ _ (hstream e hcs) hsenderr
  | none => simp only [afterStream]

/-- Witness for C7: the unreachable-target session environment satisfies
the exceptions-only hypothesis and its run propagates nothing. -/
theorem C7_session_errors_never_propagate_witness :
    (runSession envConnectFail).propagated = none := by
  apply C7_session_errors_never_propagate envConnectFail
  unfold SessionEnv.exceptionsOnly excOnly optExcOnly
  refine ⟨?_, ?_, ?_, ?_, ?_, ?_, ?_, ?_, ?_⟩
  · exact fun e h => nomatch h
  · exact fun b e h => nomatch h
  · exact fun b e h => nomatch h
  · exact fun s e h => nomatch h
  · intro hv p e h
    injection h with h2
    rw [← h2]
    rfl
  · exact fun e h => nomatch h
  · exact fun e h => nomatch h
  · exact fun d e h => nomatch h
  · exact fun e h => nomatch h

/-- C3 counterexample: a first frame that cannot be decrypted (it is
shorter than the IV, so the codec raises) does NOT abort silently — the
generic `except` branch of `handle_client` sends an error frame to the
client before the connection closes, refuting "without sending any
data". -/
theorem C3_counterexample_undecryptable_frame_sends_data :
    (runSession envUndecryptable).sent =
      [SentFrame.errorFrame (PyErr.valueError "Padding is incorrect")] ∧
    (runSession envUndecryptable).sent ≠ [] := by
  constructor
  · rfl
  · intro hcon
    have : (runSession envUndecryptable).sent =
        [SentFrame.errorFrame (PyErr.valueError "Padding is incorrect")] := rfl
    rw [this] at hcon
    cases hcon

/-- C3 amended: a first frame that cannot be decrypted, or that decodes
to JSON missing `host`, missing `port`, or with a non-`int()`-convertible
`port`, aborts the session during AwaitingHandshake — the target connect
is never attempted and nothing propagates — but not silently: the generic
error handler attempts to send exactly one encrypted error frame before
the connection closes (even when decryption itself failed). -/
theorem C3_handshake_failure_attempts_one_error_frame (env : SessionEnv)
    (f : List Nat) (e : PyErr)
    (hrecv : env.recvResult = .ok f)
    (hexc : e.isException = true)
    (hsend : optExcOnly env.sendErrResult)
    (hfail :
      env.decryptFn f = .error e ∨
      (∃ pl, env.decryptFn f = .ok pl ∧ env.utf8Decode pl = .error e) ∨
      (∃ pl rq, env.decryptFn f = .ok pl ∧ env.utf8Decode pl = .ok rq ∧
        env.parseJson rq = .error e) ∨
      (∃ pl rq info, env.decryptFn f = .ok pl ∧ env.utf8Decode pl = .ok rq ∧
        env.parseJson rq = .ok info ∧ dictGet info "host" = .error e) ∨
      (∃ pl rq info hv, env.decryptFn f = .ok pl ∧ env.utf8Decode pl = .ok rq ∧
        env.parseJson rq = .ok info ∧ dictGet info "host" = .ok hv ∧
        dictGet info "port" = .error e) ∨
      (∃ pl rq info hv pv, env.decryptFn f = .ok pl ∧ env.utf8Decode pl = .ok rq ∧
        env.parseJson rq = .ok info ∧ dictGet info "host" = .ok hv ∧
        dictGet info "port" = .ok pv ∧ pyInt pv = .error e)) :
    (runSession env).sent = [SentFrame.errorFrame e] ∧
    (runSession env).connectCalled = none ∧
    (runSession env).propagated = none := by
  have hgoal : runSession env = finishWithError e env.sendErrResult [] none [] false := by
    rcases hfail with hd | ⟨pl, hd, hu⟩ | ⟨pl, rq, hd, hu, hj⟩ |
      ⟨pl, rq, info, hd, hu, hj, hh⟩ | ⟨pl, rq, info, hv, hd, hu, hj, hh, hp⟩ |
      ⟨pl, rq, info, hv, pv, hd, hu, hj, hh, hp, hi⟩
    · simp only [runSession, hrecv, afterRecv, hd, afterDecrypt]
    · simp only [runSession, hrecv, afterRecv, hd, afterDecrypt, hu, afterUtf8]
    · simp only [runSession, hrecv, afterRecv, hd, afterDecrypt, hu, afterUtf8,
        hj, afterJson]
    · simp only [runSession, hrecv, afterRecv, hd, afterDecrypt, hu, afterUtf8,
        hj, afterJson, hh, afterHost]
    · simp only [runSession, hrecv, afterRecv, hd, afterDecrypt, hu, afterUtf8,
        hj, afterJson, hh, afterHost, hp, afterPort]
    · simp only [runSession, hrecv, afterRecv, hd, afterDecrypt, hu, afterUtf8,
        hj, afterJson, hh, afterHost, hp, afterPort, hi, afterPyInt]
  rw [hgoal, finishWithError_of_exc _ _ _ _ _ _ hexc hsend]
  exact ⟨rfl, rfl, rfl⟩

/-- Witness for the amended C3 at a handshake missing the `host` field. -/
theorem C3_handshake_failure_attempts_one_error_frame_witness :
    (runSession envMissingHost).sent =
      [SentFrame.errorFrame (PyErr.keyError "host")] ∧
    (runSession envMissingHost).connectCalled = none ∧
    (runSession envMissingHost).propagated = none :=
  C3_handshake_failure_attempts_one_error_frame envMissingHost [0]
    (PyErr.keyError "host") rfl rfl (fun e h => nomatch h)
    (Or.inr (Or.inr (Or.inr (Or.inl
      ⟨[0], "req", [("port", JVal.jint 80)], rfl, rfl, rfl, rfl⟩))))

/-- C4: when the handshake parses but the target connect call fails, the
server attempts to send exactly one encrypted frame whose decrypted
payload is a JSON object with an `error` field, then reaches Closed with
nothing propagating, regardless of whether that send succeeds; no `OK`
acknowledgment is ever sent and the relay never starts. -/
theorem C4_connect_failure_sends_one_error_frame (env : SessionEnv)
    (f pl : List Nat) (rq : String) (info : List (String × JVal))
    (hv pv : JVal) (p : Int) (e : PyErr)
    (hrecv : env.recvResult = .ok f) (hdec : env.decryptFn f = .ok pl)
    (hutf : env.utf8Decode pl = .ok rq) (hjson : env.parseJson rq = .ok info)
    (hhost : dictGet info "host" = .ok hv) (hport : dictGet info "port" = .ok pv)
    (hint : pyInt pv = .ok p)
    (hconn : env.connectFn hv p = .error e) (hexc : e.isException = true)
    (hsend : optExcOnly env.sendErrResult) :
    (runSession env).sent = [SentFrame.errorFrame e] ∧
    (errFrameJson e).lookup "error" = some (JVal.jstr e.message) ∧
    (runSession env).propagated = none ∧
    (runSession env).relayCancelled = false ∧
    (runSession env).writerClosed = false := by
  have hgoal : runSession env =
      finishWithError e env.sendErrResult [] (some (hv, p)) [] false := by
    simp only [runSession, hrecv, afterRecv, hdec, afterDecrypt, hutf, afterUtf8,
      hjson, afterJson, hhost, afterHost, hport, afterPort, hint, afterPyInt,
      hconn, afterConnect]
  rw [hgoal, finishWithError_of_exc _ _ _ _ _ _ hexc hsend]
  exact ⟨rfl, rfl, rfl, rfl, rfl⟩

/-- Witness for C4 at the unreachable-target environment. -/
theorem C4_connect_failure_sends_one_error_frame_witness :
    (runSession envConnectFail).sent =
      [SentFrame.errorFrame (PyErr.osError "unreachable")] ∧
    (errFrameJson (PyErr.osError "unreachable")).lookup "error" =
      some (JVal.jstr (PyErr.osError "unreachable").message) ∧
    (runSession envConnectFail).propagated = none ∧
    (runSession envConnectFail).relayCancelled = false ∧
    (runSession envConnectFail).writerClosed = false :=
  C4_connect_failure_sends_one_error_frame envConnectFail [0] [0] "req"
    [("host", JVal.jstr "example.invalid"), ("port", JVal.jint 80)]
    (JVal.jstr "example.invalid") (JVal.jint 80) 80 (PyErr.osError "unreachable")
    rfl rfl rfl rfl rfl rfl rfl rfl rfl (fun e h => nomatch h)

/-- C6 counterexample: the handshake `host = ""`, `port = 0` — an empty
host and a port outside 1–65535 — is not rejected: the session leaves
AwaitingHandshake and the target connect call is attempted with exactly
those values. -/
theorem C6_counterexample_port_zero_reaches_connect :
    (runSession envPortZero).connectCalled = some (JVal.jstr "", 0) ∧
    ¬(1 ≤ (0 : Int) ∧ (0 : Int) ≤ 65535) := by
  constructor
  · rfl
  · intro hcon
    exact absurd hcon.1 (by decide)

/-- C6 amended: the connect call is attempted exactly when the handshake
pipeline succeeds, and the pipeline checks only that the frame is
received, decrypted, UTF-8 decoded and JSON parsed, that the `host` and
`port` keys are present, and that `int(port)` converts — the host value
(of any JSON type, possibly the empty string) and the converted port (any
integer, with no 1–65535 range check) are passed to the connect call
unvalidated. -/
theorem C6_connect_iff_handshake_parses (env : SessionEnv) :
    (runSession env).connectCalled = parsedHandshake env := by
  rw [runSession, parsedHandshake]
  cases hr : env.recvResult with
  | error e => simp only [afterRecv, phAfterRecv, finishWithError_connectCalled]
  | ok frame =>
  simp only [afterRecv, phAfterRecv]
  cases hd : env.decryptFn frame with
  | error e => simp only [afterDecrypt, phAfterDecrypt, finishWithError_connectCalled]
  | ok plain =>
  simp only [afterDecrypt, phAfterDecrypt]
  cases hu : env.utf8Decode plain with
  | error e => simp only [afterUtf8, phAfterUtf8, finishWithError_connectCalled]
  | ok request =>
  simp only [afterUtf8, phAfterUtf8]
  cases hj : env.parseJson request with
  | error e => simp only [afterJson, phAfterJson, finishWithError_connectCalled]
  | ok info =>
  simp only [afterJson, phAfterJson]
  cases hh : dictGet info "host" with
  | error e => simp only [afterHost, phAfterHost, finishWithError_connectCalled]
  | ok hostV =>
  simp only [afterHost, phAfterHost]
  cases hp : dictGet info "port" with
  | error e => simp only [afterPort, phAfterPort, finishWithError_connectCalled]
  | ok portV =>
  simp only [afterPort, phAfterPort]
  cases hi : pyInt portV with
  | error e => simp only [afterPyInt, phAfterPyInt, finishWithError_connectCalled]
  | ok port =>
  simp only [afterPyInt, phAfterPyInt]
  cases hc : env.connectFn hostV port with
  | error e => simp only [afterConnect, finishWithError_connectCalled]
  | ok u =>
  simp only [afterConnect]
  cases hs : env.sendOkResult with
  | error e => simp only [afterSendOk, finishWithError_connectCalled]
  | ok u2 =>
  simp only [afterSendOk]
  cases hl : (downstreamLoop env.decryptFn env.writeFn env.clientMessages).2 with
  | some e => simp only [afterRelay, finishWithError_connectCalled]
  | none =>
  simp only [afterRelay]
  cases hcs : env.clientStreamErr with
  | some e => simp only [afterStream, finishWithError_connectCalled]
  | none => simp only [afterStream]

/-- C10: during Relaying, a non-binary (text) message from the client is
silently skipped by the downstream loop — not decrypted, not written to
the target, not an error; the loop continues with the next message, so
the loop's behavior on any message list equals its behavior on the
binary messages alone. -/
theorem C10_text_messages_silently_skipped
    (dec : List Nat → Except PyErr (List Nat)) (wr : List Nat → Option PyErr) :
    (∀ s rest, downstreamLoop dec wr (WsMessage.text s :: rest) =
      downstreamLoop dec wr rest) ∧
    (∀ msgs, downstreamLoop dec wr (msgs.filter WsMessage.isBin) =
      downstreamLoop dec wr msgs) := by
  refine ⟨fun s rest => rfl, fun msgs => ?_⟩
  induction msgs with
  | nil => rfl
  | cons m rest ih =>
    cases m with
    | bin b =>
      rw [show (WsMessage.bin b :: rest).filter WsMessage.isBin =
        WsMessage.bin b :: rest.filter WsMessage.isBin from rfl]
      rw [downstreamLoop, downstreamLoop, ih]
    | text s =>
      rw [show (WsMessage.text s :: rest).filter WsMessage.isBin =
        rest.filter WsMessage.isBin from rfl]
      rw [show downstreamLoop dec wr (WsMessage.text s :: rest) =
        downstreamLoop dec wr rest from rfl, ih]

/-- C2, evaluated at the failing input: when the raw target connection
reaches end-of-stream (`reader.read` returns empty), the upstream
`relay_to_client` task ends, but the downstream loop does not end, the
relay task cancellation of line 111 does not run, and `handle_client`
does not finish — the client-facing session hangs instead of terminating
within one relay cycle.  Only the converse direction behaves as claimed:
a clean downstream end does cancel the upstream task, while a downstream
error skips even that. -/
theorem C2_target_eof_leaves_session_hanging :
    (relayStep RelayEnd.targetEOF).upstreamTaskEnded = true ∧
    (relayStep RelayEnd.targetEOF).downstreamEnded = false ∧
    (relayStep RelayEnd.targetEOF).relayTaskCancelled = false ∧
    (relayStep RelayEnd.targetEOF).sessionFinished = false ∧
    (relayStep RelayEnd.clientClosed).relayTaskCancelled = true ∧
    (relayStep RelayEnd.clientErr).relayTaskCancelled = false := by
  decide

end PlotNi
